import Mathlib

/-
  Verification of the FyersVPB volume-profile breakout strategy.

  Shallow embedding of the computation core:
  prices and other Python floats are modelled as rationals,
  Python ints as Lean integers, timestamps as naturals,
  Python dicts (which iterate in insertion order) as association lists,
  and fallible code (exceptions caught by the surrounding handlers)
  as Option-valued functions.
-/

/-! ## Python primitives -/

/-- Python int() on a float: truncation toward zero. -/
def pyInt (q : ℚ) : ℤ := if 0 ≤ q then ⌊q⌋ else -⌊-q⌋

/-- Python min() over a nonempty list (0 for the empty list, unreachable at call sites). -/
def listMin : List ℚ → ℚ
  | [] => 0
  | x :: t => t.foldl min x

/-- Python max() over a nonempty list (0 for the empty list, unreachable at call sites). -/
def listMax : List ℚ → ℚ
  | [] => 0
  | x :: t => t.foldl max x

/-- Dictionary read d[k] on an insertion-ordered association list
    (0 when the key is missing; at the modelled call sites the key is present). -/
def lookupV : List (ℚ × ℤ) → ℚ → ℤ
  | [], _ => 0
  | (a, b) :: t, k => if a = k then b else lookupV t k

/-- Python defaultdict(int) update d[k] += v: the value is updated in place
    when the key exists, otherwise the new key is appended (insertion order). -/
def updAssoc : List (ℚ × ℤ) → ℚ → ℤ → List (ℚ × ℤ)
  | [], k, v => [(k, v)]
  | (a, b) :: t, k, v => if a = k then (a, b + v) :: t else (a, b) :: updAssoc t k v

/-- Python list.index: index of the first occurrence, none when absent
    (where Python raises ValueError). -/
def idxOf : List ℚ → ℚ → Option ℕ
  | [], _ => none
  | y :: t, x => if y = x then some 0 else (idxOf t x).map (· + 1)

/-- One step of Python max(items, key=lambda x: x[1]): the candidate is replaced
    only when the new second component is strictly greater, so the first of any
    tied maxima is kept. -/
def pyMaxStep (b y : ℚ × ℤ) : ℚ × ℤ := if b.2 < y.2 then y else b

/-- Python max(items, key=lambda x: x[1]) over an insertion-ordered dict:
    first pair attaining the maximal value; none on the empty list
    (where Python raises ValueError, caught by the handler). -/
def pyMaxBySnd : List (ℚ × ℤ) → Option (ℚ × ℤ)
  | [] => none
  | x :: t => some (t.foldl pyMaxStep x)

/-! ## Data model: models/trading_models.py (claim-relevant fields) -/

/-- LiveQuote (models/trading_models.py): the fields the claims use.
    ltp is the last traded price, volume the tick volume, timestamp the tick time. -/
structure LiveQuote where
  ltp : ℚ
  volume : ℤ
  timestamp : ℕ
deriving DecidableEq, Repr

/-- VolumeProfileData (models/trading_models.py). symbol and the datetime fields
    carry no algorithmic content; timestamps are dropped, symbol kept. -/
structure VolumeProfileData where
  symbol : String
  poc : ℚ
  vah : ℚ
  val : ℚ
  profile_high : ℚ
  profile_low : ℚ
  total_volume : ℤ
  value_area_volume : ℤ
  volume_by_price : List (ℚ × ℤ)
  price_levels : List ℚ
  hvn_levels : List ℚ
  lvn_levels : List ℚ
  poc_strength : ℚ
  profile_width : ℚ
  profile_width_pct : ℚ
  num_ticks : ℕ
deriving DecidableEq, Repr

/-! ## services/volume_profile_service.py : VolumeProfileCalculator -/

/-- Bucket index of a tick price:
    min(int((price - price_min) / bucket_size), num_price_levels - 1). -/
def bucketIdx (N : ℕ) (pmin bs : ℚ) (price : ℚ) : ℕ :=
  (min (pyInt ((price - pmin) / bs)) ((N : ℤ) - 1)).toNat

/-- The volume-by-price dict built by the bucketing loop of calculate_volume_profile:
    each tick adds its volume to the bucket keyed by price_levels[bucket_idx]. -/
def buildVolumeByPrice (N : ℕ) (pmin bs : ℚ) (levels : List ℚ) (ticks : List LiveQuote) :
    List (ℚ × ℤ) :=
  ticks.foldl (fun d t => updAssoc d (levels.getD (bucketIdx N pmin bs t.ltp) 0) t.volume) []

/-- The local variable upper_volume of the loop body: the volume of the
    next-higher bucket, 0 when the upper pointer is at the top. -/
def vaUpperVol (vbp : List (ℚ × ℤ)) (sp : List ℚ) (u : ℕ) : ℤ :=
  if u < sp.length - 1 then lookupV vbp (sp.getD (u + 1) 0) else 0

/-- The local variable lower_volume of the loop body: the volume of the
    next-lower bucket, 0 when the lower pointer is at the bottom. -/
def vaLowerVol (vbp : List (ℚ × ℤ)) (sp : List ℚ) (l : ℕ) : ℤ :=
  if 0 < l then lookupV vbp (sp.getD (l - 1) 0) else 0

/-- The while loop of _calculate_value_area. upper_volume / lower_volume are the
    volumes of the next-higher / next-lower bucket (0 at the boundary); the loop
    expands toward the larger (upward on a tie: the comparison is >=) and stops
    once the accumulated volume reaches the target or no expansion is possible.
    Returns (upper_idx, lower_idx, accumulated_volume). Each iteration moves one
    pointer outward, so the loop runs at most (length - 1 - u) + l more times;
    fuel bounds the iteration count and, as instantiated below, never runs out
    (the fuel-zero branch is unreachable: see the vaLoop lemmas). -/
def vaLoop (vbp : List (ℚ × ℤ)) (sp : List ℚ) (target : ℚ) :
    ℕ → ℕ → ℕ → ℤ → ℕ × ℕ × ℤ
  | 0, u, l, acc => (u, l, acc)
  | fuel + 1, u, l, acc =>
    if (acc : ℚ) < target then
      if vaLowerVol vbp sp l ≤ vaUpperVol vbp sp u ∧ u < sp.length - 1 then
        vaLoop vbp sp target fuel (u + 1) l (acc + lookupV vbp (sp.getD (u + 1) 0))
      else if 0 < l then
        vaLoop vbp sp target fuel u (l - 1) (acc + lookupV vbp (sp.getD (l - 1) 0))
      else (u, l, acc)
    else (u, l, acc)

/-- The local variable sorted_prices of _calculate_value_area. -/
def sortedPrices (vbp : List (ℚ × ℤ)) : List ℚ :=
  List.insertionSort (· ≤ ·) (vbp.map Prod.fst)

/-- _calculate_value_area: sort the bucket prices ascending, start both pointers at
    the POC bucket, run the expansion loop; returns (vah, val, value_area_volume).
    The except-branch fallback (last price, first price, total volume) corresponds
    to poc missing from the keys, unreachable at the call site. -/
def calcValueArea (vaPct : ℚ) (vbp : List (ℚ × ℤ)) (poc : ℚ) (total : ℤ) :
    ℚ × ℚ × ℤ :=
  match idxOf (sortedPrices vbp) poc with
  | some pidx =>
    let r := vaLoop vbp (sortedPrices vbp) ((total : ℚ) * (vaPct / 100))
      (sortedPrices vbp).length pidx pidx (lookupV vbp poc)
    ((sortedPrices vbp).getD r.1 0, (sortedPrices vbp).getD r.2.1 0, r.2.2)
  | none => ((sortedPrices vbp).getLastD 0, (sortedPrices vbp).headD 0, total)

/-- Sum of the bucket volumes of the sorted-price window [l, u]
    (used to state what the loop accumulator holds). -/
def sumIdx (vbp : List (ℚ × ℤ)) (sp : List ℚ) (l u : ℕ) : ℤ :=
  ((List.range' l (u + 1 - l)).map (fun i => lookupV vbp (sp.getD i 0))).sum

/-- The profile record built at the end of calculate_volume_profile, given the
    bucketed volumes and the POC pair returned by the max call. -/
def mkProfile (sym : String) (vaPct : ℚ) (ticks : List LiveQuote)
    (vbp : List (ℚ × ℤ)) (pocPair : ℚ × ℤ) (pmin pmax : ℚ) (levels : List ℚ) :
    VolumeProfileData :=
  let poc := pocPair.1
  let poc_volume := lookupV vbp poc
  let total := (vbp.map Prod.snd).sum
  let va := calcValueArea vaPct vbp poc total
  let avg : ℚ := (total : ℚ) / (vbp.length : ℚ)
  { symbol := sym
    poc := poc
    vah := va.1
    val := va.2.1
    profile_high := pmax
    profile_low := pmin
    total_volume := total
    value_area_volume := va.2.2
    volume_by_price := vbp
    price_levels := levels
    hvn_levels := List.insertionSort (· ≤ ·)
      ((vbp.filter (fun x => (3 / 2 : ℚ) * avg ≤ (x.2 : ℚ))).map Prod.fst)
    lvn_levels := List.insertionSort (· ≤ ·)
      ((vbp.filter (fun x => (x.2 : ℚ) ≤ (1 / 2 : ℚ) * avg)).map Prod.fst)
    poc_strength := if 0 < avg then (poc_volume : ℚ) / avg else 0
    profile_width := va.1 - va.2.1
    profile_width_pct := if 0 < poc then (va.1 - va.2.1) / poc * 100 else 0
    num_ticks := ticks.length }

/-- The local variable price_min of calculate_volume_profile. -/
def corePmin (ticks : List LiveQuote) : ℚ := listMin (ticks.map (·.ltp))

/-- The local variable price_max of calculate_volume_profile. -/
def corePmax (ticks : List LiveQuote) : ℚ := listMax (ticks.map (·.ltp))

/-- The local variable bucket_size = price_range / num_price_levels. -/
def coreBs (N : ℕ) (ticks : List LiveQuote) : ℚ :=
  (corePmax ticks - corePmin ticks) / (N : ℚ)

/-- The local variable price_levels = [price_min + i * bucket_size]. -/
def coreLevels (N : ℕ) (ticks : List LiveQuote) : List ℚ :=
  (List.range (N + 1)).map (fun i => corePmin ticks + (i : ℚ) * coreBs N ticks)

/-- The local variable volume_by_price of calculate_volume_profile. -/
def coreVbp (N : ℕ) (ticks : List LiveQuote) : List (ℚ × ℤ) :=
  buildVolumeByPrice N (corePmin ticks) (coreBs N ticks) (coreLevels N ticks) ticks

/-- Core of calculate_volume_profile on an already-windowed tick list:
    none when fewer than 10 ticks, when the price range is zero, or when
    num_price_levels is zero (ZeroDivisionError caught by the handler). -/
def calcCore (sym : String) (N : ℕ) (vaPct : ℚ) (ticks : List LiveQuote) :
    Option VolumeProfileData :=
  if ticks.length < 10 then none
  else if corePmax ticks - corePmin ticks = 0 then none
  else if N = 0 then none
  else
    match pyMaxBySnd (coreVbp N ticks) with
    | none => none
    | some pocPair =>
      some (mkProfile sym vaPct ticks (coreVbp N ticks) pocPair
        (corePmin ticks) (corePmax ticks) (coreLevels N ticks))

/-- The optional [start, end] time filter of calculate_volume_profile:
    a tick is kept unless start is given and the tick is earlier, or end is
    given and the tick is later. -/
def pyFilterWindow (s e : Option ℕ) (ticks : List LiveQuote) : List LiveQuote :=
  ticks.filter (fun t =>
    (match s with | some st => decide (st ≤ t.timestamp) | none => true) &&
    (match e with | some en => decide (t.timestamp ≤ en) | none => true))

/-- calculate_volume_profile for one symbol: none when the symbol has no ticks,
    otherwise the core computation on the time-filtered window. -/
def calculateVolumeProfile (sym : String) (N : ℕ) (vaPct : ℚ)
    (s e : Option ℕ) (ticks : List LiveQuote) : Option VolumeProfileData :=
  if ticks = [] then none else calcCore sym N vaPct (pyFilterWindow s e ticks)

/-- calculate_volume_profile together with its cache effect: the cached profile
    for the symbol is replaced only when the calculation succeeds.
    Returns (result, cache afterwards). -/
def calcAndCache (sym : String) (N : ℕ) (vaPct : ℚ) (s e : Option ℕ)
    (ticks : List LiveQuote) (cache : Option VolumeProfileData) :
    Option VolumeProfileData × Option VolumeProfileData :=
  match calculateVolumeProfile sym N vaPct s e ticks with
  | none => (none, cache)
  | some p => (some p, some p)

/-! ## Python dynamic-call model

The strategy and model modules disagree about several signatures: some calls
pass keyword arguments the callee does not declare (TypeError) and some
expressions read attributes the dataclass does not define (AttributeError).
Both exception kinds are raised at the call and caught by the enclosing
try/except of the calling method. The checks below decide, from the declared
name lists, whether such a call or read succeeds. -/

/-- A Python call with these keyword arguments succeeds only when every
    keyword names a declared parameter (otherwise TypeError). -/
def pyKwargsOk (declared passed : List String) : Bool :=
  passed.all (fun k => declared.contains k)

/-- Python attribute reads succeed only when every read names a declared
    dataclass field (otherwise AttributeError). -/
def pyAttrsOk (declared reads : List String) : Bool :=
  reads.all (fun k => declared.contains k)

/-- Fields of the Position dataclass (models/trading_models.py). -/
def positionFieldNames : List String :=
  ["symbol", "signal_type", "entry_price", "quantity", "stop_loss", "target_price",
   "vp_poc", "vp_vah", "vp_val", "breakout_level", "entry_time", "signal_time",
   "current_price", "highest_price", "lowest_price", "current_stop_loss",
   "order_id", "sl_order_id", "target_order_id", "unrealized_pnl",
   "max_favorable_excursion", "max_adverse_excursion"]

/-- Keyword arguments passed to Position(...) by create_position_from_signal. -/
def createPositionKwargNames : List String :=
  ["symbol", "signal_type", "entry_price", "quantity", "entry_time", "target_price",
   "initial_stop_loss", "current_stop_loss", "order_id", "poc", "vah", "val",
   "breakout_level", "breakout_type"]

/-- Fields of the VolumeProfileData dataclass (models/trading_models.py). -/
def vpDataFieldNames : List String :=
  ["symbol", "poc", "vah", "val", "profile_high", "profile_low", "total_volume",
   "value_area_volume", "volume_by_price", "price_levels", "hvn_levels", "lvn_levels",
   "poc_strength", "profile_width", "profile_width_pct", "calculation_time",
   "data_start_time", "data_end_time", "num_ticks"]

/-- Attributes of vp_data read by _evaluate_breakout_signal for the node checks:
    vp_data.low_volume_nodes (and later vp_data.high_volume_nodes); the dataclass
    declares lvn_levels / hvn_levels instead. -/
def evaluateNodeAttrReads : List String :=
  ["low_volume_nodes"]

/-- Parameters of VolumeProfileCalculator.is_near_volume_node. -/
def isNearVolumeNodeParamNames : List String :=
  ["vp_data", "price", "distance_pct"]

/-- Keyword arguments passed to is_near_volume_node by _evaluate_breakout_signal. -/
def isNearVolumeNodeKwargNames : List String :=
  ["threshold_pct"]

/-- Attributes read off the position by create_trade_result_from_position;
    poc, vah and val are not Position fields (they are vp_poc, vp_vah, vp_val). -/
def tradeResultAttrReads : List String :=
  ["signal_type", "entry_price", "quantity", "symbol", "entry_time",
   "poc", "vah", "val", "breakout_level",
   "max_favorable_excursion", "max_adverse_excursion"]

/-! ## Data model: strategy side -/

/-- SignalType (config/settings.py). -/
inductive SignalType where
  | LONG
  | SHORT
deriving DecidableEq, Repr

/-- Position (models/trading_models.py), claim-relevant fields.
    lowest_price is an Option: none models the float +infinity that
    __post_init__ assigns for LONG positions. -/
structure Position where
  symbol : String
  signal_type : SignalType
  entry_price : ℚ
  quantity : ℤ
  stop_loss : ℚ
  target_price : ℚ
  vp_poc : ℚ
  vp_vah : ℚ
  vp_val : ℚ
  breakout_level : ℚ
  entry_time : ℕ
  current_price : ℚ := 0
  highest_price : ℚ := 0
  lowest_price : Option ℚ := some 0
  current_stop_loss : ℚ := 0
  unrealized_pnl : ℚ := 0
  max_favorable_excursion : ℚ := 0
  max_adverse_excursion : ℚ := 0
deriving DecidableEq, Repr

/-- Position.__post_init__: the current stop is the initial stop; the highest
    price is the entry for LONG positions and 0.0 otherwise; the lowest price is
    the entry for SHORT positions and float +infinity (none) otherwise. -/
def positionPostInit (p : Position) : Position :=
  { p with
    current_stop_loss := p.stop_loss
    highest_price := if p.signal_type = SignalType.LONG then p.entry_price else 0
    lowest_price := if p.signal_type = SignalType.SHORT then some p.entry_price else none }

/-- The values _evaluate_breakout_signal computes for a candidate signal
    (the used fields of VolumeProfileSignal). -/
structure SignalData where
  symbol : String
  signal_type : SignalType
  breakout_level : ℚ
  entry_price : ℚ
  stop_loss : ℚ
  target_price : ℚ
  confidence : ℚ
  volume_ratio : ℚ
  distance_from_poc_pct : ℚ
  risk_amount : ℚ
  reward_amount : ℚ
deriving DecidableEq, Repr

/-- TradeResult (models/trading_models.py), claim-relevant fields;
    net_pnl = gross_pnl - commission is set by __post_init__. -/
structure TradeResult where
  symbol : String
  signal_type : SignalType
  entry_price : ℚ
  exit_price : ℚ
  quantity : ℤ
  exit_reason : String
  gross_pnl : ℚ
  commission : ℚ
  net_pnl : ℚ
  max_favorable_excursion : ℚ
  max_adverse_excursion : ℚ
deriving DecidableEq, Repr

/-- VolumeProfileStrategyConfig (config/settings.py), claim-relevant fields. -/
structure StrategyConfig where
  portfolio_value : ℚ
  risk_per_trade_pct : ℚ
  max_positions : ℤ
  min_breakout_distance_pct : ℚ
  min_volume_ratio : ℚ
  min_poc_distance_pct : ℚ
  min_confidence : ℚ
  require_volume_confirmation : Bool
  avoid_low_volume_nodes : Bool
  target_multiplier : ℚ
  trailing_stop_pct : ℚ
  enable_trailing_stops : Bool
deriving DecidableEq, Repr

/-- Mutable state of VolumeProfileBreakoutStrategy, claim-relevant fields.
    The dicts are insertion-ordered association lists keyed by symbol. -/
structure StrategyState where
  positions : List (String × Position)
  live_quotes : List (String × LiveQuote)
  volume_profiles : List (String × VolumeProfileData)
  breakout_detected : List (String × String)
  completed_trades : List TradeResult
  signals_generated_today : List SignalData
  daily_pnl : ℚ
deriving DecidableEq, Repr

/-- Dictionary read d.get(k) on a string-keyed insertion-ordered dict. -/
def dget {α : Type} (l : List (String × α)) (k : String) : Option α :=
  match l with
  | [] => none
  | (a, b) :: t => if a = k then some b else dget t k

/-- Dictionary write d[k] = v: update in place, or append a new key. -/
def dset {α : Type} (l : List (String × α)) (k : String) (v : α) : List (String × α) :=
  match l with
  | [] => [(k, v)]
  | (a, b) :: t => if a = k then (a, v) :: t else (a, b) :: dset t k v

/-- Dictionary deletion del d[k]. -/
def dremove {α : Type} (l : List (String × α)) (k : String) : List (String × α) :=
  match l with
  | [] => []
  | (a, b) :: t => if a = k then t else (a, b) :: dremove t k

/-! ## strategy/volume_profile_strategy.py -/

/-- _check_for_breakout for one symbol, acting on the symbol's entry of the
    breakout_detected dict (none = absent). Once a breakout is recorded the
    method returns immediately; otherwise the VAH side is checked before the
    VAL side and a flag is recorded only when the relative distance reaches
    min_breakout_distance_pct. A zero VAH/VAL makes the distance expression
    raise ZeroDivisionError, caught by the handler (no flag recorded). -/
def checkForBreakoutFlag (minDist : ℚ) (vah pval : ℚ) (flag : Option String)
    (price : ℚ) : Option String :=
  match flag with
  | some s => some s
  | none =>
    if vah < price then
      if vah = 0 then none
      else if minDist ≤ (price - vah) / vah * 100 then some "VAH" else none
    else if price < pval then
      if pval = 0 then none
      else if minDist ≤ (pval - price) / pval * 100 then some "VAL" else none
    else none

/-- One _check_for_breakout call together with its event count: an event is
    recorded exactly when the flag transitions from absent to present. -/
def breakoutStep (minDist : ℚ) (vah pval : ℚ) (st : Option String × ℕ) (p : ℚ) :
    Option String × ℕ :=
  let f := checkForBreakoutFlag minDist vah pval st.1 p
  (f, st.2 + if st.1.isNone ∧ f.isSome then 1 else 0)

/-- A sequence of _check_for_breakout calls for one symbol over successive tick
    prices, counting how many times a breakout event is recorded. -/
def runBreakoutChecks (minDist : ℚ) (vah pval : ℚ) (flag : Option String)
    (prices : List ℚ) : Option String × ℕ :=
  prices.foldl (breakoutStep minDist vah pval) (flag, 0)

/-- _calculate_signal_confidence: tiered weighted sum capped at 1.0.
    entry_price is a parameter of the source method but is not read. -/
def calcSignalConfidence (vp : VolumeProfileData) (entry_price : ℚ)
    (volume_ratio : ℚ) (near_hvn near_lvn : Bool) (distance_from_poc_pct : ℚ) : ℚ :=
  let c1 : ℚ :=
    if 2 ≤ volume_ratio then 30 / 100
    else if 3 / 2 ≤ volume_ratio then 20 / 100
    else if 1 ≤ volume_ratio then 10 / 100
    else 0
  let c2 : ℚ :=
    if 2 ≤ distance_from_poc_pct then 25 / 100
    else if 3 / 2 ≤ distance_from_poc_pct then 20 / 100
    else if 1 ≤ distance_from_poc_pct then 15 / 100
    else 0
  let c3 : ℚ :=
    if near_hvn then 25 / 100
    else if ¬ near_lvn then 15 / 100
    else 5 / 100
  let c4 : ℚ :=
    if 2 ≤ vp.poc_strength then 20 / 100
    else if 3 / 2 ≤ vp.poc_strength then 15 / 100
    else 10 / 100
  min (c1 + c2 + c3 + c4) 1

/-- _evaluate_breakout_signal. The derivation of direction, levels and the POC
    distance filter and the volume-confirmation filter follow the source; the
    node-proximity step then evaluates vp_data.low_volume_nodes, an attribute
    VolumeProfileData does not define, so it raises AttributeError (and the call
    itself also passes the keyword threshold_pct, which is not a parameter of
    is_near_volume_node). The exception is caught by the except handler of
    _evaluate_breakout_signal, which returns None: no signal is ever produced. -/
def evaluateBreakoutSignal (cfg : StrategyConfig) (vp : VolumeProfileData)
    (q : LiveQuote) (btype : String) : Option SignalData :=
  let current_price := q.ltp
  let entry_price := current_price
  let stop_loss := vp.poc
  if vp.poc = 0 then none   -- ZeroDivisionError in the POC-distance expression
  else
    let distance_from_poc_pct := |entry_price - vp.poc| / vp.poc * 100
    if distance_from_poc_pct < cfg.min_poc_distance_pct then none
    else
      let volume_ratio : ℚ := 1   -- placeholder in the source
      if cfg.require_volume_confirmation ∧ volume_ratio < cfg.min_volume_ratio then none
      else if pyAttrsOk vpDataFieldNames evaluateNodeAttrReads
              ∧ pyKwargsOk isNearVolumeNodeParamNames isNearVolumeNodeKwargNames then
        -- Unreachable: both checks fail (see evaluate_node_step_raises below);
        -- the remaining lines of the source method never execute.
        none
      else none

/-- The position-size computation of _execute_signal:
    int(portfolio_value * risk_per_trade_pct / 100 / |entry - stop|). -/
def positionQuantity (cfg : StrategyConfig) (signal : SignalData) : ℤ :=
  let risk_amount := cfg.portfolio_value * cfg.risk_per_trade_pct / 100
  let price_risk := |signal.entry_price - signal.stop_loss|
  pyInt (risk_amount / price_risk)

/-- create_position_from_signal: the Position(...) call passes the keywords
    initial_stop_loss, poc, vah, val and breakout_type, none of which are fields
    of Position, so it raises TypeError; none models the raised exception. The
    some-branch is the record the call describes (its intended field mapping)
    and is unreachable. -/
def createPositionFromSignal (signal : SignalData) (quantity : ℤ) : Option Position :=
  if pyKwargsOk positionFieldNames createPositionKwargNames then
    some (positionPostInit
      { symbol := signal.symbol
        signal_type := signal.signal_type
        entry_price := signal.entry_price
        quantity := quantity
        stop_loss := signal.stop_loss
        target_price := signal.target_price
        vp_poc := 0
        vp_vah := 0
        vp_val := 0
        breakout_level := signal.breakout_level
        entry_time := 0 })
  else none

/-- _execute_signal: refuse when the per-unit risk is nonpositive or the
    computed quantity is nonpositive; otherwise create and store the position.
    The creation step always raises (createPositionFromSignal), the except
    handler catches it and the method returns False with the state unchanged. -/
def executeSignal (cfg : StrategyConfig) (st : StrategyState) (signal : SignalData) :
    StrategyState × Bool :=
  let price_risk := |signal.entry_price - signal.stop_loss|
  if price_risk ≤ 0 then (st, false)
  else
    let quantity := positionQuantity cfg signal
    if quantity ≤ 0 then (st, false)
    else
      match createPositionFromSignal signal
          (if signal.signal_type = SignalType.LONG then quantity else -quantity) with
      | some pos =>
        ({ st with
            positions := dset st.positions signal.symbol pos
            signals_generated_today := st.signals_generated_today ++ [signal] }, true)
      | none => (st, false)

/-- Python list slicing l[:k] with an int bound: a negative bound counts from
    the end of the list. -/
def pySliceTo {α : Type} (k : ℤ) (l : List α) : List α :=
  if 0 ≤ k then l.take k.toNat else l.take (l.length - (-k).toNat)

/-- Stable descending insertion by confidence, modelling
    list.sort(key=lambda x: x.confidence, reverse=True). -/
def insertByConfDesc (x : SignalData) : List SignalData → List SignalData
  | [] => [x]
  | y :: t => if y.confidence < x.confidence then x :: y :: t else y :: insertByConfDesc x t

/-- Python stable sort by confidence, descending. -/
def sortByConfDesc (l : List SignalData) : List SignalData :=
  l.foldr insertByConfDesc []

/-- scan_for_breakout_signals: walk the detected breakouts (the dict is read,
    never written), evaluate each candidate that has no open position and has a
    quote and a profile, sort the evaluated signals by confidence descending,
    and execute the top slice subject to the confidence threshold. -/
def scanForBreakoutSignals (cfg : StrategyConfig) (st : StrategyState) : StrategyState :=
  if st.breakout_detected = [] then st
  else
    let new_signals := st.breakout_detected.foldl
      (fun acc sb =>
        if (dget st.positions sb.1).isSome then acc
        else
          match dget st.live_quotes sb.1, dget st.volume_profiles sb.1 with
          | some q, some vp =>
            match evaluateBreakoutSignal cfg vp q sb.2 with
            | some s => acc ++ [s]
            | none => acc
          | _, _ => acc)
      []
    let sorted_signals := sortByConfDesc new_signals
    let available_slots : ℤ := cfg.max_positions - st.positions.length
    (pySliceTo available_slots sorted_signals).foldl
      (fun s sig =>
        if cfg.min_confidence ≤ sig.confidence then (executeSignal cfg s sig).1 else s)
      st

/-- update_price_extremes (models/trading_models.py). -/
def updatePriceExtremes (p : Position) (price : ℚ) : Position :=
  let p0 := { p with current_price := price }
  match p0.signal_type with
  | SignalType.LONG =>
    { p0 with
      highest_price := max p0.highest_price price
      max_favorable_excursion := max p0.max_favorable_excursion (price - p0.entry_price)
      max_adverse_excursion := min p0.max_adverse_excursion (price - p0.entry_price) }
  | SignalType.SHORT =>
    { p0 with
      lowest_price := some (match p0.lowest_price with
        | none => price          -- min(inf, price) = price
        | some l => min l price)
      max_favorable_excursion := max p0.max_favorable_excursion (p0.entry_price - price)
      max_adverse_excursion := min p0.max_adverse_excursion (p0.entry_price - price) }

/-- _update_trailing_stop: for LONG the candidate highest*(1 - pct/100) is
    adopted only when strictly above the current stop; for SHORT the candidate
    lowest*(1 + pct/100) only when strictly below. A lowest price of +infinity
    (none) gives an infinite candidate, never below the current stop. -/
def updateTrailingStop (pct : ℚ) (p : Position) : Position :=
  match p.signal_type with
  | SignalType.LONG =>
    let new_stop := p.highest_price * (1 - pct / 100)
    if p.current_stop_loss < new_stop then { p with current_stop_loss := new_stop } else p
  | SignalType.SHORT =>
    match p.lowest_price with
    | none => p
    | some l =>
      let new_stop := l * (1 + pct / 100)
      if new_stop < p.current_stop_loss then { p with current_stop_loss := new_stop } else p

/-- _update_position_tracking: update extremes, recompute unrealized P&L,
    then apply the trailing stop when enabled. -/
def updatePositionTracking (cfg : StrategyConfig) (p : Position) (price : ℚ) : Position :=
  let p1 := updatePriceExtremes p price
  let p2 := { p1 with
    unrealized_pnl :=
      if p1.signal_type = SignalType.LONG then (price - p1.entry_price) * p1.quantity
      else (p1.entry_price - price) * |(p1.quantity : ℚ)| }
  if cfg.enable_trailing_stops then updateTrailingStop cfg.trailing_stop_pct p2 else p2

/-- _should_exit_on_stop_loss. -/
def shouldExitStop (p : Position) (price : ℚ) : Bool :=
  match p.signal_type with
  | SignalType.LONG => price ≤ p.current_stop_loss
  | SignalType.SHORT => p.current_stop_loss ≤ price

/-- _should_exit_on_target. -/
def shouldExitTarget (p : Position) (price : ℚ) : Bool :=
  match p.signal_type with
  | SignalType.LONG => p.target_price ≤ price
  | SignalType.SHORT => price ≤ p.target_price

/-- The exit decision of monitor_positions for one position and price: the
    stop-loss check runs first, the target check only in its elif branch, so at
    most one reason results and STOP_LOSS wins when both conditions hold. -/
def exitReason (p : Position) (price : ℚ) : Option String :=
  if shouldExitStop p price then some "STOP_LOSS"
  else if shouldExitTarget p price then some "TARGET"
  else none

/-- create_trade_result_from_position: reads position.poc, position.vah and
    position.val, attributes Position does not define (the fields are vp_poc,
    vp_vah, vp_val), so it raises AttributeError; none models the exception.
    The some-branch is the record the source describes and is unreachable. -/
def createTradeResultFromPosition (p : Position) (exit_price : ℚ) (reason : String) :
    Option TradeResult :=
  if pyAttrsOk positionFieldNames tradeResultAttrReads then
    let gross : ℚ :=
      match p.signal_type with
      | SignalType.LONG => (exit_price - p.entry_price) * p.quantity
      | SignalType.SHORT => (p.entry_price - exit_price) * |(p.quantity : ℚ)|
    some
      { symbol := p.symbol
        signal_type := p.signal_type
        entry_price := p.entry_price
        exit_price := exit_price
        quantity := p.quantity
        exit_reason := reason
        gross_pnl := gross
        commission := 0
        net_pnl := gross - 0
        max_favorable_excursion := p.max_favorable_excursion
        max_adverse_excursion := p.max_adverse_excursion }
  else none

/-- _close_position: look up the position and its quote, build the trade result,
    append it, add its net P&L to the daily P&L and delete the position — all
    inside one try block, so when the construction raises (it always does, see
    createTradeResultFromPosition) nothing is mutated. -/
def closePosition (st : StrategyState) (sym : String) (reason : String) : StrategyState :=
  match dget st.positions sym, dget st.live_quotes sym with
  | some p, some q =>
    match createTradeResultFromPosition p q.ltp reason with
    | some tr =>
      { st with
        completed_trades := st.completed_trades ++ [tr]
        daily_pnl := st.daily_pnl + tr.net_pnl
        positions := dremove st.positions sym }
    | none => st
  | _, _ => st

/-- monitor_positions: collect at most one exit reason per open position with a
    quote (stop loss checked before target), then close the collected positions. -/
def monitorPositions (st : StrategyState) : StrategyState :=
  let toClose := st.positions.foldl
    (fun acc sp =>
      match dget st.live_quotes sp.1 with
      | none => acc
      | some q =>
        match exitReason sp.2 q.ltp with
        | some reason => acc ++ [(sp.1, reason)]
        | none => acc)
    []
  toClose.foldl (fun s sr => closePosition s sr.1 sr.2) st

/-! ## Concrete instances used by the counterexamples and witnesses -/

/-- Default VolumeProfileStrategyConfig values (config/settings.py). -/
def cfgDefault : StrategyConfig :=
  { portfolio_value := 100000
    risk_per_trade_pct := 1
    max_positions := 5
    min_breakout_distance_pct := 3 / 10
    min_volume_ratio := 3 / 2
    min_poc_distance_pct := 1
    min_confidence := 65 / 100
    require_volume_confirmation := true
    avoid_low_volume_nodes := true
    target_multiplier := 2
    trailing_stop_pct := 1 / 2
    enable_trailing_stops := true }

/-- A placeholder profile (only used as the default of Option.getD). -/
def emptyProfile : VolumeProfileData :=
  ⟨"", 0, 0, 0, 0, 0, 0, 0, [], [], [], [], 0, 0, 0, 0⟩

/-- Ten ticks whose first tick lands in the higher of two equal-volume buckets:
    bucket 1 (prices around 3/2) and bucket 1/2 (prices around 1/2) both
    accumulate volume 5, and bucket 1 is touched first. -/
def c1ticks : List LiveQuote :=
  [⟨3/2, 5, 0⟩, ⟨1/2, 5, 1⟩, ⟨1/2, 0, 2⟩, ⟨3/2, 0, 3⟩, ⟨1/2, 0, 4⟩,
   ⟨3/2, 0, 5⟩, ⟨1/2, 0, 6⟩, ⟨3/2, 0, 7⟩, ⟨1/2, 0, 8⟩, ⟨3/2, 0, 9⟩]

/-- The profile computed from c1ticks with 2 price buckets and a 70% value area. -/
def c1profile : VolumeProfileData :=
  (calculateVolumeProfile "S" 2 70 none none c1ticks).getD emptyProfile

/-- The empty strategy state. -/
def st0 : StrategyState := ⟨[], [], [], [], [], [], 0⟩

/-- The quantity-sizing scenario: LONG breakout signal with entry 100, stop 90. -/
def sig5 : SignalData :=
  { symbol := "S"
    signal_type := SignalType.LONG
    breakout_level := 98
    entry_price := 100
    stop_loss := 90
    target_price := 120
    confidence := 7 / 10
    volume_ratio := 1
    distance_from_poc_pct := 10
    risk_amount := 10
    reward_amount := 20 }

/-- A raw LONG position record as the dataclass would receive it (before
    __post_init__), for the scenario of C5. -/
def pos5 : Position :=
  { symbol := "S"
    signal_type := SignalType.LONG
    entry_price := 100
    quantity := 100
    stop_loss := 90
    target_price := 120
    vp_poc := 90
    vp_vah := 98
    vp_val := 85
    breakout_level := 98
    entry_time := 0 }

/-- A profile for the C2 scenario: POC 95, VAH 100, VAL 90. -/
def vpC2 : VolumeProfileData :=
  { symbol := "S"
    poc := 95
    vah := 100
    val := 90
    profile_high := 105
    profile_low := 88
    total_volume := 1000
    value_area_volume := 700
    volume_by_price := [(95, 700), (100, 200), (90, 100)]
    price_levels := [90, 95, 100]
    hvn_levels := [95]
    lvn_levels := [90]
    poc_strength := 2
    profile_width := 10
    profile_width_pct := 10
    num_ticks := 50 }

/-- A state holding one pending VAH breakout for symbol S, with its quote and
    profile present and no open position: the scan processes the candidate. -/
def stC2 : StrategyState :=
  { positions := []
    live_quotes := [("S", ⟨104, 10, 0⟩)]
    volume_profiles := [("S", vpC2)]
    breakout_detected := [("S", "VAH")]
    completed_trades := []
    signals_generated_today := []
    daily_pnl := 0 }

/-- An open LONG position whose trailing stop (107) has moved above its target
    (106): at price 106.5 both the stop-loss and the target condition hold. -/
def pos7 : Position :=
  { symbol := "S"
    signal_type := SignalType.LONG
    entry_price := 100
    quantity := 100
    stop_loss := 90
    target_price := 106
    vp_poc := 95
    vp_vah := 98
    vp_val := 90
    breakout_level := 98
    entry_time := 0
    current_price := 108
    highest_price := 108
    lowest_price := none
    current_stop_loss := 107 }

/-- A state holding the position pos7 and a quote at 106.5 for its symbol. -/
def st7 : StrategyState :=
  { positions := [("S", pos7)]
    live_quotes := [("S", ⟨1065/10, 10, 0⟩)]
    volume_profiles := []
    breakout_detected := []
    completed_trades := []
    signals_generated_today := []
    daily_pnl := 0 }

/-- Five ticks: too few for a profile. -/
def c9ticksShort : List LiveQuote :=
  [⟨10, 1, 0⟩, ⟨11, 1, 1⟩, ⟨12, 1, 2⟩, ⟨13, 1, 3⟩, ⟨14, 1, 4⟩]

/-- Ten ticks, all at the same price: a degenerate range. -/
def c9ticksFlat : List LiveQuote :=
  [⟨7, 1, 0⟩, ⟨7, 1, 1⟩, ⟨7, 1, 2⟩, ⟨7, 1, 3⟩, ⟨7, 1, 4⟩,
   ⟨7, 1, 5⟩, ⟨7, 1, 6⟩, ⟨7, 1, 7⟩, ⟨7, 1, 8⟩, ⟨7, 1, 9⟩]

/-! ## General lemmas: strategy side -/

/-- executeSignal never touches the breakout_detected dict. -/
theorem executeSignal_breakout_detected (cfg : StrategyConfig) (st : StrategyState)
    (sig : SignalData) : (executeSignal cfg st sig).1.breakout_detected = st.breakout_detected := by
  simp only [executeSignal]
  split
  · rfl
  · split
    · rfl
    · split <;> rfl

/-- The admission fold of scan_for_breakout_signals never touches breakout_detected. -/
theorem admitFold_breakout_detected (cfg : StrategyConfig) (sigs : List SignalData) :
    ∀ st : StrategyState,
      (sigs.foldl
        (fun s sig =>
          if cfg.min_confidence ≤ sig.confidence then (executeSignal cfg s sig).1 else s)
        st).breakout_detected = st.breakout_detected := by
  induction sigs with
  | nil => intro st; rfl
  | cons x t ih =>
    intro st
    simp only [List.foldl]
    rw [ih]
    split
    · exact executeSignal_breakout_detected cfg st x
    · rfl

/-- Once a breakout flag is present, _check_for_breakout leaves it unchanged. -/
theorem foldl_breakoutStep_some (minDist vah pval : ℚ) :
    ∀ (prices : List ℚ) (x : String) (n : ℕ),
      prices.foldl (breakoutStep minDist vah pval) (some x, n) = (some x, n) := by
  intro prices
  induction prices with
  | nil => intro x n; rfl
  | cons p t ih => intro x n; exact ih x n

/-! ## Claim theorems: C2, C5, C6, C7, C8, C10 -/

set_option maxRecDepth 4000 in
/-- C2, counterexample: a pending VAH breakout whose candidate is processed and
    rejected by the volume-confirmation filter is still pending after
    scan_for_breakout_signals: the claim that admission consumes the pending
    BreakoutEvent is false on this state. -/
theorem C2_counterexample :
    scanForBreakoutSignals cfgDefault stC2 = stC2 ∧
    (scanForBreakoutSignals cfgDefault stC2).breakout_detected = [("S", "VAH")] := by
  with_unfolding_all decide

/-- C2, amended: scan_for_breakout_signals never removes (nor otherwise changes)
    entries of the breakout_detected dict, so a processed candidate stays pending
    and is re-examined on later cycles. -/
theorem C2_amended_scan_preserves_pending (cfg : StrategyConfig) (st : StrategyState) :
    (scanForBreakoutSignals cfg st).breakout_detected = st.breakout_detected := by
  unfold scanForBreakoutSignals
  split
  · rfl
  · exact admitFold_breakout_detected cfg _ st

/-- C5, counterexample: in the sizing scenario (portfolio 100000, risk 1%,
    entry 100, stop 90) the computed quantity is 100 and is accepted, yet
    _execute_signal opens no position and returns False (the Position
    construction raises TypeError); moreover __post_init__ does not seed a LONG
    position's lowest price from the entry: it is float +infinity (none). -/
theorem C5_counterexample :
    positionQuantity cfgDefault sig5 = 100 ∧
    executeSignal cfgDefault st0 sig5 = (st0, false) ∧
    (positionPostInit pos5).lowest_price = none := by
  with_unfolding_all decide

/-- C5, amended: the quantity is the floor of risk amount over per-unit risk
    (when both are well-signed); _execute_signal always returns False with the
    state unchanged, because create_position_from_signal passes keyword
    arguments Position does not define; Position.__post_init__ sets the current
    stop to the initial stop and seeds only the favorable-direction extreme
    from the entry price (highest for LONG, lowest for SHORT), the opposite
    extreme being 0.0 resp. +infinity. -/
theorem C5_amended_sizing (cfg : StrategyConfig) (st : StrategyState) (sig : SignalData)
    (p : Position) :
    (0 < |sig.entry_price - sig.stop_loss| →
      0 ≤ cfg.portfolio_value * cfg.risk_per_trade_pct / 100 →
      positionQuantity cfg sig =
        ⌊cfg.portfolio_value * cfg.risk_per_trade_pct / 100 /
          |sig.entry_price - sig.stop_loss|⌋) ∧
    executeSignal cfg st sig = (st, false) ∧
    (positionPostInit p).current_stop_loss = p.stop_loss ∧
    (positionPostInit p).highest_price =
      (if p.signal_type = SignalType.LONG then p.entry_price else 0) ∧
    (positionPostInit p).lowest_price =
      (if p.signal_type = SignalType.SHORT then some p.entry_price else none) := by
  refine ⟨?_, ?_, rfl, rfl, rfl⟩
  · intro hr ha
    unfold positionQuantity pyInt
    rw [if_pos (div_nonneg ha (le_of_lt hr))]
  · have hkw : pyKwargsOk positionFieldNames createPositionKwargNames = false := by decide
    simp only [executeSignal, createPositionFromSignal, hkw, Bool.false_eq_true, if_false]
    split
    · rfl
    · split
      · rfl
      · rfl

/-- C5, witness for the amended theorem at the scenario inputs. -/
theorem C5_amended_sizing_witness :
    positionQuantity cfgDefault sig5 =
      ⌊cfgDefault.portfolio_value * cfgDefault.risk_per_trade_pct / 100 /
        |sig5.entry_price - sig5.stop_loss|⌋ ∧
    executeSignal cfgDefault st0 sig5 = (st0, false) ∧
    (positionPostInit pos5).current_stop_loss = pos5.stop_loss := by
  obtain ⟨h1, h2, h3, _, _⟩ := C5_amended_sizing cfgDefault st0 sig5 pos5
  exact ⟨h1 (by norm_num [sig5]) (by norm_num [cfgDefault]), h2, h3⟩

/-- C6: once the breakout flag is set for a symbol no further event is recorded
    (the dict entry never changes and the event count stays 0), and two
    consecutive ticks both exceeding the upper breakout threshold record exactly
    one VAH event. -/
theorem C6_one_event_per_profile (minDist vah pval : ℚ) (flag : Option String)
    (prices : List ℚ) (p1 p2 : ℚ) :
    (flag.isSome → runBreakoutChecks minDist vah pval flag prices = (flag, 0)) ∧
    (0 < vah → vah < p1 → minDist ≤ (p1 - vah) / vah * 100 →
      vah < p2 → minDist ≤ (p2 - vah) / vah * 100 →
      runBreakoutChecks minDist vah pval none [p1, p2] = (some "VAH", 1)) := by
  constructor
  · intro hs
    cases flag with
    | none => simp at hs
    | some x => exact foldl_breakoutStep_some minDist vah pval prices x 0
  · intro h0 hp1 hd1 hp2 hd2
    have hv : ¬ (vah = 0) := ne_of_gt h0
    have hstep1 : checkForBreakoutFlag minDist vah pval none p1 = some "VAH" := by
      simp only [checkForBreakoutFlag]
      rw [if_pos hp1, if_neg hv, if_pos hd1]
    have hstep2 : checkForBreakoutFlag minDist vah pval (some "VAH") p2 = some "VAH" := rfl
    simp only [runBreakoutChecks, List.foldl, breakoutStep, hstep1, hstep2,
      Option.isNone_none, Option.isSome_some, Option.isNone_some]
    norm_num

/-- C6, witness: thresholds 0.3% around VAH 100, two ticks at 101 and 102. -/
theorem C6_one_event_witness :
    runBreakoutChecks (3/10) 100 90 (some "VAH") [101, 102] = (some "VAH", 0) ∧
    runBreakoutChecks (3/10) 100 90 none [101, 102] = (some "VAH", 1) := by
  obtain ⟨h1, h2⟩ := C6_one_event_per_profile (3/10) 100 90 (some "VAH") [101, 102] 101 102
  refine ⟨h1 rfl, h2 ?_ ?_ ?_ ?_ ?_⟩ <;> norm_num

set_option maxRecDepth 4000 in
/-- C7: on the state st7 (trailing stop 107 above target 106, price 106.5, so
    the stop-loss and target conditions hold simultaneously) the single recorded
    exit reason is STOP_LOSS, not TARGET; however _close_position's trade-result
    construction raises AttributeError (create_trade_result_from_position reads
    position.poc, which Position does not define), so monitor_positions leaves
    the position open and appends no TradeResult: the state is unchanged. -/
theorem C7_stop_priority_close_fails :
    exitReason pos7 (1065/10) = some "STOP_LOSS" ∧
    shouldExitTarget pos7 (1065/10) = true ∧
    createTradeResultFromPosition pos7 (1065/10) "STOP_LOSS" = none ∧
    monitorPositions st7 = st7 := by
  with_unfolding_all decide

/-- Each per-tick position update preserves the direction and moves the current
    stop only toward the favorable side: up for LONG, down for SHORT. -/
theorem updatePositionTracking_step (cfg : StrategyConfig) (p : Position) (price : ℚ) :
    (updatePositionTracking cfg p price).signal_type = p.signal_type ∧
    (p.signal_type = SignalType.LONG →
      p.current_stop_loss ≤ (updatePositionTracking cfg p price).current_stop_loss) ∧
    (p.signal_type = SignalType.SHORT →
      (updatePositionTracking cfg p price).current_stop_loss ≤ p.current_stop_loss) := by
  rcases p with ⟨a1, a2, a3, a4, a5, a6, a7, a8, a9, a10, a11, a12, a13, a14, a15, a16, a17, a18⟩
  cases a2 <;> cases a14 <;>
    simp only [updatePositionTracking, updatePriceExtremes, updateTrailingStop] <;>
    split_ifs <;>
    simp_all <;>
    linarith

/-- Over any tick sequence a LONG position's stop never decreases and a SHORT
    position's stop never increases (and the direction is preserved). -/
theorem foldl_tracking_monotone (cfg : StrategyConfig) :
    ∀ (prices : List ℚ) (p : Position),
      (prices.foldl (updatePositionTracking cfg) p).signal_type = p.signal_type ∧
      (p.signal_type = SignalType.LONG →
        p.current_stop_loss ≤ (prices.foldl (updatePositionTracking cfg) p).current_stop_loss) ∧
      (p.signal_type = SignalType.SHORT →
        (prices.foldl (updatePositionTracking cfg) p).current_stop_loss ≤ p.current_stop_loss) := by
  intro prices
  induction prices with
  | nil => exact fun p => ⟨rfl, fun _ => le_refl _, fun _ => le_refl _⟩
  | cons q t ih =>
    intro p
    obtain ⟨hsig, hlong, hshort⟩ := updatePositionTracking_step cfg p q
    obtain ⟨ihsig, ihlong, ihshort⟩ := ih (updatePositionTracking cfg p q)
    refine ⟨by simpa [List.foldl, hsig] using ihsig, ?_, ?_⟩
    · intro hL
      exact le_trans (hlong hL) (ihlong (by rw [hsig, hL]))
    · intro hS
      exact le_trans (ihshort (by rw [hsig, hS])) (hshort hS)

/-- C8: the LONG candidate stop highest*(1 - pct/100) is adopted exactly when it
    raises the current stop (the new stop is the max of the two), the SHORT
    candidate lowest*(1 + pct/100) exactly when it lowers it (the min, with an
    infinite lowest leaving the stop unchanged); consequently across any tick
    sequence a LONG stop is non-decreasing and a SHORT stop non-increasing. -/
theorem C8_trailing_stop_never_loosens (cfg : StrategyConfig) (pct : ℚ) (p : Position)
    (prices : List ℚ) :
    (p.signal_type = SignalType.LONG →
      (updateTrailingStop pct p).current_stop_loss =
        max p.current_stop_loss (p.highest_price * (1 - pct / 100))) ∧
    (p.signal_type = SignalType.SHORT →
      (updateTrailingStop pct p).current_stop_loss =
        (match p.lowest_price with
         | none => p.current_stop_loss
         | some l => min p.current_stop_loss (l * (1 + pct / 100)))) ∧
    (p.signal_type = SignalType.LONG →
      p.current_stop_loss ≤ (prices.foldl (updatePositionTracking cfg) p).current_stop_loss) ∧
    (p.signal_type = SignalType.SHORT →
      (prices.foldl (updatePositionTracking cfg) p).current_stop_loss ≤ p.current_stop_loss) := by
  obtain ⟨_, hlong, hshort⟩ := foldl_tracking_monotone cfg prices p
  refine ⟨?_, ?_, hlong, hshort⟩
  · intro hL
    simp only [updateTrailingStop, hL]
    split_ifs with h
    · exact (max_eq_right (le_of_lt h)).symm
    · exact (max_eq_left (not_lt.mp h)).symm
  · intro hS
    simp only [updateTrailingStop, hS]
    cases hl : p.lowest_price with
    | none => simp only [hl]
    | some l =>
      simp only [hl]
      split_ifs with h
      · exact (min_eq_right (le_of_lt h)).symm
      · exact (min_eq_left (not_lt.mp h)).symm

/-- C8, witness: a LONG position at pos7 with rising prices and a SHORT variant. -/
theorem C8_trailing_stop_witness :
    (updateTrailingStop (1/2) pos7).current_stop_loss =
      max pos7.current_stop_loss (pos7.highest_price * (1 - (1/2) / 100)) ∧
    pos7.current_stop_loss ≤
      (([108, 109, 110] : List ℚ).foldl (updatePositionTracking cfgDefault) pos7).current_stop_loss := by
  obtain ⟨h1, _, h3, _⟩ :=
    C8_trailing_stop_never_loosens cfgDefault (1/2) pos7 [108, 109, 110]
  exact ⟨h1 rfl, h3 rfl⟩

/-- C10: the confidence score lies in [0, 1], and the computation is a pure
    function of its inputs: identical inputs give identical outputs. -/
theorem C10_confidence_bounds (vp : VolumeProfileData) (e vr : ℚ) (hvn lvn : Bool)
    (dp : ℚ) :
    (0 ≤ calcSignalConfidence vp e vr hvn lvn dp ∧
      calcSignalConfidence vp e vr hvn lvn dp ≤ 1) ∧
    (∀ (vp2 : VolumeProfileData) (e2 vr2 : ℚ) (hvn2 lvn2 : Bool) (dp2 : ℚ),
      vp = vp2 → e = e2 → vr = vr2 → hvn = hvn2 → lvn = lvn2 → dp = dp2 →
      calcSignalConfidence vp e vr hvn lvn dp =
        calcSignalConfidence vp2 e2 vr2 hvn2 lvn2 dp2) := by
  refine ⟨⟨?_, ?_⟩, ?_⟩
  · simp only [calcSignalConfidence]
    refine le_min ?_ zero_le_one
    refine add_nonneg (add_nonneg (add_nonneg ?_ ?_) ?_) ?_ <;> split_ifs <;> norm_num
  · simp only [calcSignalConfidence]
    exact min_le_right _ _
  · intro vp2 e2 vr2 hvn2 lvn2 dp2 h1 h2 h3 h4 h5 h6
    subst h1; subst h2; subst h3; subst h4; subst h5; subst h6
    rfl

/-- C10, witness at concrete inputs. -/
theorem C10_confidence_witness :
    (0 ≤ calcSignalConfidence vpC2 104 1 false false (900/95) ∧
      calcSignalConfidence vpC2 104 1 false false (900/95) ≤ 1) ∧
    calcSignalConfidence vpC2 104 1 false false (900/95) =
      calcSignalConfidence vpC2 104 1 false false (900/95) := by
  obtain ⟨hb, hd⟩ := C10_confidence_bounds vpC2 104 1 false false (900/95)
  exact ⟨hb, hd vpC2 104 1 false false (900/95) rfl rfl rfl rfl rfl rfl⟩

/-! ## General lemmas: profile construction -/

/-- The fold underlying Python max(key=snd): the result dominates the seed and
    every element, and is either the seed or the first element attaining a value
    strictly above the seed and everything before it. -/
theorem pyMaxFold_spec :
    ∀ (t : List (ℚ × ℤ)) (b : ℚ × ℤ), ∃ r,
      t.foldl pyMaxStep b = r ∧
      b.2 ≤ r.2 ∧
      (∀ x ∈ t, x.2 ≤ r.2) ∧
      (r = b ∨
        (b.2 < r.2 ∧ ∃ t1 t2, t = t1 ++ r :: t2 ∧ ∀ x ∈ t1, x.2 < r.2)) := by
  intro t
  induction t with
  | nil =>
    intro b
    exact ⟨b, rfl, le_refl _, by simp, Or.inl rfl⟩
  | cons y t ih =>
    intro b
    by_cases h : b.2 < y.2
    · have hstep : pyMaxStep b y = y := by simp [pyMaxStep, h]
      obtain ⟨r, hr, ih1, ih2, ih3⟩ := ih y
      refine ⟨r, by simpa [List.foldl, hstep] using hr, le_trans (le_of_lt h) ih1, ?_, ?_⟩
      · intro x hx
        rcases List.mem_cons.mp hx with hx | hx
        · exact hx ▸ ih1
        · exact ih2 x hx
      · rcases ih3 with heq | ⟨hlt, t1, t2, hsplit, hpre⟩
        · refine Or.inr ⟨heq ▸ h, [], t, ?_, by simp⟩
          rw [heq]
          rfl
        · refine Or.inr ⟨lt_trans h hlt, y :: t1, t2, by rw [hsplit]; rfl, ?_⟩
          intro x hx
          rcases List.mem_cons.mp hx with hx | hx
          · exact hx ▸ hlt
          · exact hpre x hx
    · have hstep : pyMaxStep b y = b := by simp [pyMaxStep, h]
      obtain ⟨r, hr, ih1, ih2, ih3⟩ := ih b
      refine ⟨r, by simpa [List.foldl, hstep] using hr, ih1, ?_, ?_⟩
      · intro x hx
        rcases List.mem_cons.mp hx with hx | hx
        · exact hx ▸ le_trans (not_lt.mp h) ih1
        · exact ih2 x hx
      · rcases ih3 with heq | ⟨hlt, t1, t2, hsplit, hpre⟩
        · exact Or.inl heq
        · refine Or.inr ⟨hlt, y :: t1, t2, by rw [hsplit]; rfl, ?_⟩
          intro x hx
          rcases List.mem_cons.mp hx with hx | hx
          · exact hx ▸ lt_of_le_of_lt (not_lt.mp h) hlt
          · exact hpre x hx

/-- Python max(items, key=snd) returns a maximal pair and, more precisely, the
    first pair attaining the maximum: everything before it is strictly smaller. -/
theorem pyMaxBySnd_spec {l : List (ℚ × ℤ)} {m : ℚ × ℤ} (h : pyMaxBySnd l = some m) :
    (∀ x ∈ l, x.2 ≤ m.2) ∧
    ∃ t1 t2, l = t1 ++ m :: t2 ∧ ∀ x ∈ t1, x.2 < m.2 := by
  cases l with
  | nil => exact absurd h (by simp [pyMaxBySnd])
  | cons x t =>
    have hm : t.foldl pyMaxStep x = m := Option.some.inj h
    obtain ⟨r, hr, h1, h2, h3⟩ := pyMaxFold_spec t x
    obtain rfl : r = m := hr.symm.trans hm
    constructor
    · intro z hz
      rcases List.mem_cons.mp hz with hz | hz
      · exact hz ▸ h1
      · exact h2 z hz
    · rcases h3 with heq | ⟨hlt, t1, t2, hsplit, hpre⟩
      · exact ⟨[], t, by rw [heq]; rfl, by simp⟩
      · refine ⟨x :: t1, t2, by rw [hsplit]; rfl, ?_⟩
        intro z hz
        rcases List.mem_cons.mp hz with hz | hz
        · exact hz ▸ hlt
        · exact hpre z hz

/-- list.index finds a member. -/
theorem idxOf_isSome_of_mem {l : List ℚ} {x : ℚ} (h : x ∈ l) :
    ∃ i, idxOf l x = some i := by
  induction l with
  | nil => exact absurd h (by simp)
  | cons y t ih =>
    by_cases hy : y = x
    · exact ⟨0, by simp [idxOf, hy]⟩
    · rcases List.mem_cons.mp h with h' | h'
      · exact absurd h'.symm hy
      · obtain ⟨i, hi⟩ := ih h'
        exact ⟨i + 1, by simp [idxOf, hy, hi]⟩

/-- list.index returns an index in range pointing at the element. -/
theorem idxOf_spec : ∀ {l : List ℚ} {x : ℚ} {i : ℕ}, idxOf l x = some i →
    i < l.length ∧ l.getD i 0 = x := by
  intro l
  induction l with
  | nil => intro x i h; exact absurd h (by simp [idxOf])
  | cons y t ih =>
    intro x i h
    by_cases hy : y = x
    · simp only [idxOf, if_pos hy] at h
      obtain rfl : (0 : ℕ) = i := Option.some.inj h
      exact ⟨by simp, hy⟩
    · simp only [idxOf, if_neg hy, Option.map_eq_some'] at h
      obtain ⟨j, hj, rfl⟩ := h
      obtain ⟨hjl, hjg⟩ := ih hj
      exact ⟨by simpa using Nat.succ_lt_succ hjl, by simpa using hjg⟩

/-- Reading a sorted list at increasing indices gives increasing values. -/
theorem sorted_getD_mono {l : List ℚ} (h : l.Sorted (· ≤ ·)) {i j : ℕ}
    (hij : i ≤ j) (hj : j < l.length) : l.getD i 0 ≤ l.getD j 0 := by
  have hi : i < l.length := lt_of_le_of_lt hij hj
  rw [List.getD_eq_getElem _ _ hi, List.getD_eq_getElem _ _ hj]
  rcases lt_or_eq_of_le hij with hlt | rfl
  · exact h.rel_get_of_lt (a := ⟨i, hi⟩) (b := ⟨j, hj⟩) hlt
  · exact le_refl _

/-- The value-area loop only moves the pointers outward and keeps the upper
    pointer in range, provided the fuel exceeds the remaining iteration bound. -/
theorem vaLoop_bounds (vbp : List (ℚ × ℤ)) (sp : List ℚ) (target : ℚ) :
    ∀ (fuel u l : ℕ) (acc : ℤ), u < sp.length → (sp.length - 1 - u) + l < fuel →
      (vaLoop vbp sp target fuel u l acc).2.1 ≤ l ∧
      u ≤ (vaLoop vbp sp target fuel u l acc).1 ∧
      (vaLoop vbp sp target fuel u l acc).1 < sp.length := by
  intro fuel
  induction fuel with
  | zero => intro u l acc _ hf; exact absurd hf (Nat.not_lt_zero _)
  | succ f ih =>
    intro u l acc hu hf
    simp only [vaLoop]
    by_cases hc : ((acc : ℚ) < target)
    · rw [if_pos hc]
      by_cases hA : (vaLowerVol vbp sp l ≤ vaUpperVol vbp sp u ∧ u < sp.length - 1)
      · rw [if_pos hA]
        obtain ⟨b1, b2, b3⟩ := ih (u + 1) l _ (by omega) (by omega)
        exact ⟨b1, by omega, b3⟩
      · rw [if_neg hA]
        by_cases hB : 0 < l
        · rw [if_pos hB]
          obtain ⟨b1, b2, b3⟩ := ih u (l - 1) _ hu (by omega)
          exact ⟨by omega, b2, b3⟩
        · rw [if_neg hB]
          exact ⟨le_refl _, le_refl _, hu⟩
    · rw [if_neg hc]
      exact ⟨le_refl _, le_refl _, hu⟩

/-- Extending the summation window one bucket upward. -/
theorem sumIdx_up (vbp : List (ℚ × ℤ)) (sp : List ℚ) {l u : ℕ} (h : l ≤ u + 1) :
    sumIdx vbp sp l (u + 1) = sumIdx vbp sp l u + lookupV vbp (sp.getD (u + 1) 0) := by
  unfold sumIdx
  have h1 : u + 1 + 1 - l = (u + 1 - l) + 1 := by omega
  have h2 : l + (u + 1 - l) = u + 1 := by omega
  rw [h1, List.range'_1_concat, List.map_append, List.sum_append, h2]
  simp

/-- Extending the summation window one bucket downward. -/
theorem sumIdx_down (vbp : List (ℚ × ℤ)) (sp : List ℚ) {l u : ℕ} (hl : 0 < l)
    (h : l ≤ u + 1) :
    sumIdx vbp sp (l - 1) u = lookupV vbp (sp.getD (l - 1) 0) + sumIdx vbp sp l u := by
  unfold sumIdx
  have h1 : u + 1 - (l - 1) = (u + 1 - l) + 1 := by omega
  have h2 : l - 1 + 1 = l := by omega
  rw [h1, List.range'_succ, h2]
  simp

/-- The summation window of a single bucket. -/
theorem sumIdx_single (vbp : List (ℚ × ℤ)) (sp : List ℚ) (i : ℕ) :
    sumIdx vbp sp i i = lookupV vbp (sp.getD i 0) := by
  unfold sumIdx
  have h1 : i + 1 - i = 1 := by omega
  rw [h1]
  simp

/-- Reading every index of a list in order gives the list back. -/
theorem map_getD_range : ∀ (sp : List ℚ),
    (List.range sp.length).map (fun i => sp.getD i 0) = sp := by
  intro sp
  induction sp with
  | nil => rfl
  | cons x t ih =>
    show (List.range (t.length + 1)).map (fun i => (x :: t).getD i 0) = x :: t
    rw [List.range_succ_eq_map, List.map_cons, List.map_map]
    refine congrArg (x :: ·) ?_
    have hc : ((fun i => (x :: t).getD i 0) ∘ Nat.succ) = (fun i => t.getD i 0) := by
      funext i
      simp [List.getD_cons_succ]
    rw [hc, ih]

/-- The full summation window is the sum over all sorted prices. -/
theorem sumIdx_full (vbp : List (ℚ × ℤ)) (sp : List ℚ) (h : 0 < sp.length) :
    sumIdx vbp sp 0 (sp.length - 1) = (sp.map (lookupV vbp)).sum := by
  unfold sumIdx
  have h1 : sp.length - 1 + 1 - 0 = sp.length := by omega
  rw [h1, ← List.range_eq_range']
  have := map_getD_range sp
  calc ((List.range sp.length).map (fun i => lookupV vbp (sp.getD i 0))).sum
      = (((List.range sp.length).map (fun i => sp.getD i 0)).map (lookupV vbp)).sum := by
        rw [List.map_map]; rfl
    _ = (sp.map (lookupV vbp)).sum := by rw [this]

/-- A lookup in a dict of nonnegative volumes is nonnegative. -/
theorem lookupV_nonneg : ∀ {vbp : List (ℚ × ℤ)}, (∀ x ∈ vbp, 0 ≤ x.2) → ∀ (k : ℚ),
    0 ≤ lookupV vbp k := by
  intro vbp
  induction vbp with
  | nil => intro _ k; exact le_refl 0
  | cons y t ih =>
    intro hnn k
    rcases y with ⟨a, b⟩
    simp only [lookupV]
    split_ifs
    · exact hnn (a, b) (List.mem_cons_self _ _)
    · exact ih (fun x hx => hnn x (List.mem_cons_of_mem _ hx)) k

/-- With nonnegative bucket volumes, the loop accumulator always equals the sum
    of the current window, and the loop stops only because the target is reached
    or because the window has grown to the whole price list. -/
theorem vaLoop_reach (vbp : List (ℚ × ℤ)) (sp : List ℚ) (target : ℚ)
    (hnn : ∀ x ∈ vbp, 0 ≤ x.2) :
    ∀ (fuel u l : ℕ) (acc : ℤ), u < sp.length → l ≤ u →
      (sp.length - 1 - u) + l < fuel → acc = sumIdx vbp sp l u →
      (vaLoop vbp sp target fuel u l acc).2.2 =
        sumIdx vbp sp (vaLoop vbp sp target fuel u l acc).2.1
          (vaLoop vbp sp target fuel u l acc).1 ∧
      (target ≤ ((vaLoop vbp sp target fuel u l acc).2.2 : ℚ) ∨
        ((vaLoop vbp sp target fuel u l acc).2.1 = 0 ∧
          (vaLoop vbp sp target fuel u l acc).1 = sp.length - 1)) := by
  intro fuel
  induction fuel with
  | zero => intro u l acc _ _ hf _; exact absurd hf (Nat.not_lt_zero _)
  | succ f ih =>
    intro u l acc hu hl hf hacc
    simp only [vaLoop]
    by_cases hc : ((acc : ℚ) < target)
    · rw [if_pos hc]
      by_cases hA : (vaLowerVol vbp sp l ≤ vaUpperVol vbp sp u ∧ u < sp.length - 1)
      · rw [if_pos hA]
        refine ih (u + 1) l _ (by omega) (by omega) (by omega) ?_
        rw [hacc, ← sumIdx_up vbp sp (by omega)]
      · rw [if_neg hA]
        by_cases hB : 0 < l
        · rw [if_pos hB]
          refine ih u (l - 1) _ hu (by omega) (by omega) ?_
          rw [hacc, sumIdx_down vbp sp hB (by omega)]
          ring
        · rw [if_neg hB]
          have hl0 : l = 0 := by omega
          have huv : 0 ≤ vaUpperVol vbp sp u := by
            unfold vaUpperVol
            split_ifs
            · exact lookupV_nonneg hnn _
            · exact le_refl 0
          have hlv : vaLowerVol vbp sp l = 0 := by
            unfold vaLowerVol
            rw [if_neg hB]
          have hu2 : ¬ u < sp.length - 1 := fun hcon => hA ⟨hlv ▸ huv, hcon⟩
          exact ⟨hacc, Or.inr ⟨hl0, by omega⟩⟩
    · rw [if_neg hc]
      exact ⟨hacc, Or.inl (not_lt.mp hc)⟩

/-- A key of the updated dict is an old key or the inserted key. -/
theorem updAssoc_fst_subset : ∀ (l : List (ℚ × ℤ)) (k : ℚ) (v : ℤ) (x : ℚ),
    x ∈ (updAssoc l k v).map Prod.fst → x ∈ l.map Prod.fst ∨ x = k := by
  intro l k v
  induction l with
  | nil =>
    intro x hx
    simp [updAssoc] at hx
    exact Or.inr hx
  | cons y t ih =>
    intro x hx
    rcases y with ⟨a, b⟩
    by_cases hak : a = k
    · simp only [updAssoc, if_pos hak] at hx
      simp at hx
      rcases hx with hx | hx
      · exact Or.inl (by simp [hx])
      · exact Or.inl (by simp; exact Or.inr hx)
    · simp only [updAssoc, if_neg hak] at hx
      simp at hx
      rcases hx with hx | hx
      · exact Or.inl (by simp [hx])
      · rcases ih x (by simpa using hx) with h' | h'
        · exact Or.inl (by simp; right; simpa using h')
        · exact Or.inr h'

/-- Updating a dict keeps its keys distinct. -/
theorem updAssoc_fst_nodup : ∀ (l : List (ℚ × ℤ)) (k : ℚ) (v : ℤ),
    (l.map Prod.fst).Nodup → ((updAssoc l k v).map Prod.fst).Nodup := by
  intro l k v
  induction l with
  | nil => intro _; simp [updAssoc]
  | cons y t ih =>
    intro hnd
    rcases y with ⟨a, b⟩
    simp only [List.map_cons, List.nodup_cons] at hnd
    by_cases hak : a = k
    · simp only [updAssoc, if_pos hak, List.map_cons, List.nodup_cons]
      exact hnd
    · simp only [updAssoc, if_neg hak, List.map_cons, List.nodup_cons]
      refine ⟨?_, ih hnd.2⟩
      intro hcon
      rcases updAssoc_fst_subset t k v a hcon with h' | h'
      · exact hnd.1 h'
      · exact hak h'

/-- Updating a dict keeps values nonnegative when the added volume is. -/
theorem updAssoc_nonneg : ∀ (l : List (ℚ × ℤ)) (k : ℚ) (v : ℤ),
    (∀ x ∈ l, 0 ≤ x.2) → 0 ≤ v → ∀ x ∈ updAssoc l k v, 0 ≤ x.2 := by
  intro l k v
  induction l with
  | nil =>
    intro _ hv x hx
    simp [updAssoc] at hx
    rw [hx]
    exact hv
  | cons y t ih =>
    intro hnn hv x hx
    rcases y with ⟨a, b⟩
    by_cases hak : a = k
    · simp only [updAssoc, if_pos hak] at hx
      rcases List.mem_cons.mp hx with hx | hx
      · rw [hx]
        have := hnn (a, b) (List.mem_cons_self _ _)
        simpa using add_nonneg this hv
      · exact hnn x (List.mem_cons_of_mem _ hx)
    · simp only [updAssoc, if_neg hak] at hx
      rcases List.mem_cons.mp hx with hx | hx
      · rw [hx]
        exact hnn (a, b) (List.mem_cons_self _ _)
      · exact ih (fun z hz => hnn z (List.mem_cons_of_mem _ hz)) hv x hx

/-- The updated dict is never empty. -/
theorem updAssoc_ne_nil (l : List (ℚ × ℤ)) (k : ℚ) (v : ℤ) : updAssoc l k v ≠ [] := by
  cases l with
  | nil => simp [updAssoc]
  | cons y t =>
    rcases y with ⟨a, b⟩
    simp only [updAssoc]
    split_ifs <;> simp

/-- The bucketing fold keeps keys distinct. -/
theorem buildVbp_fst_nodup (N : ℕ) (pmin bs : ℚ) (levels : List ℚ)
    (ticks : List LiveQuote) :
    ((buildVolumeByPrice N pmin bs levels ticks).map Prod.fst).Nodup := by
  unfold buildVolumeByPrice
  have main : ∀ (ts : List LiveQuote) (d : List (ℚ × ℤ)), (d.map Prod.fst).Nodup →
      ((ts.foldl (fun d t => updAssoc d (levels.getD (bucketIdx N pmin bs t.ltp) 0)
        t.volume) d).map Prod.fst).Nodup := by
    intro ts
    induction ts with
    | nil => intro d hd; exact hd
    | cons t ts ih => intro d hd; exact ih _ (updAssoc_fst_nodup _ _ _ hd)
  exact main ticks [] (by simp)

/-- The bucketing fold keeps values nonnegative when all tick volumes are. -/
theorem buildVbp_nonneg (N : ℕ) (pmin bs : ℚ) (levels : List ℚ)
    (ticks : List LiveQuote) (hnn : ∀ t ∈ ticks, 0 ≤ t.volume) :
    ∀ x ∈ buildVolumeByPrice N pmin bs levels ticks, 0 ≤ x.2 := by
  unfold buildVolumeByPrice
  have main : ∀ (ts : List LiveQuote) (d : List (ℚ × ℤ)), (∀ t ∈ ts, 0 ≤ t.volume) →
      (∀ x ∈ d, 0 ≤ x.2) →
      ∀ x ∈ ts.foldl (fun d t => updAssoc d (levels.getD (bucketIdx N pmin bs t.ltp) 0)
        t.volume) d, 0 ≤ x.2 := by
    intro ts
    induction ts with
    | nil => intro d _ hd; exact hd
    | cons t ts ih =>
      intro d hts hd
      exact ih _ (fun z hz => hts z (List.mem_cons_of_mem _ hz))
        (updAssoc_nonneg _ _ _ hd (hts t (List.mem_cons_self _ _)))
  exact main ticks [] hnn (by simp)

/-- The bucketing fold of a nonempty tick list is nonempty. -/
theorem buildVbp_ne_nil (N : ℕ) (pmin bs : ℚ) (levels : List ℚ)
    (ticks : List LiveQuote) (h : ticks ≠ []) :
    buildVolumeByPrice N pmin bs levels ticks ≠ [] := by
  unfold buildVolumeByPrice
  have main : ∀ (ts : List LiveQuote) (d : List (ℚ × ℤ)), d ≠ [] →
      ts.foldl (fun d t => updAssoc d (levels.getD (bucketIdx N pmin bs t.ltp) 0)
        t.volume) d ≠ [] := by
    intro ts
    induction ts with
    | nil => intro d hd; exact hd
    | cons t ts ih => intro d _; exact ih _ (updAssoc_ne_nil _ _ _)
  cases ticks with
  | nil => exact absurd rfl h
  | cons t ts => exact main ts _ (updAssoc_ne_nil _ _ _)

/-- Summing lookups over the distinct keys gives the sum of the values. -/
theorem sum_lookup_keys : ∀ (vbp : List (ℚ × ℤ)), (vbp.map Prod.fst).Nodup →
    ((vbp.map Prod.fst).map (lookupV vbp)).sum = (vbp.map Prod.snd).sum := by
  intro vbp
  induction vbp with
  | nil => intro _; rfl
  | cons y t ih =>
    intro hnd
    rcases y with ⟨a, b⟩
    simp only [List.map_cons, List.nodup_cons] at hnd
    simp only [List.map_cons, List.sum_cons]
    have hhead : lookupV ((a, b) :: t) a = b := by simp [lookupV]
    have htail : (t.map Prod.fst).map (lookupV ((a, b) :: t)) =
        (t.map Prod.fst).map (lookupV t) := by
      refine List.map_congr_left ?_
      intro k hk
      have hka : ¬ a = k := fun hcon => hnd.1 (hcon ▸ hk)
      simp [lookupV, hka]
    rw [hhead, htail, ih hnd.2]

/-- Both value-area pointers start at the POC bucket and only move outward, so
    VAL is at most the POC price and VAH at least the POC price. -/
theorem calcValueArea_bounds (vaPct : ℚ) (vbp : List (ℚ × ℤ)) (poc : ℚ) (total : ℤ)
    (hmem : poc ∈ vbp.map Prod.fst) :
    (calcValueArea vaPct vbp poc total).2.1 ≤ poc ∧
    poc ≤ (calcValueArea vaPct vbp poc total).1 := by
  have hperm : List.Perm (sortedPrices vbp) (vbp.map Prod.fst) :=
    List.perm_insertionSort (· ≤ ·) (vbp.map Prod.fst)
  have hsort : (sortedPrices vbp).Sorted (· ≤ ·) :=
    List.sorted_insertionSort (· ≤ ·) (vbp.map Prod.fst)
  have hmem2 : poc ∈ sortedPrices vbp := hperm.mem_iff.mpr hmem
  obtain ⟨pidx, hpidx⟩ := idxOf_isSome_of_mem hmem2
  obtain ⟨hlt, hget⟩ := idxOf_spec hpidx
  obtain ⟨b1, b2, b3⟩ := vaLoop_bounds vbp (sortedPrices vbp)
    ((total : ℚ) * (vaPct / 100)) (sortedPrices vbp).length pidx pidx
    (lookupV vbp poc) hlt (by omega)
  simp only [calcValueArea, hpidx]
  constructor
  · calc (sortedPrices vbp).getD (vaLoop vbp (sortedPrices vbp)
        ((total : ℚ) * (vaPct / 100)) (sortedPrices vbp).length pidx pidx
        (lookupV vbp poc)).2.1 0
        ≤ (sortedPrices vbp).getD pidx 0 := sorted_getD_mono hsort b1 hlt
      _ = poc := hget
  · calc poc = (sortedPrices vbp).getD pidx 0 := hget.symm
      _ ≤ _ := sorted_getD_mono hsort b2 b3

/-- The returned value-area volume reaches the target fraction of the total, or
    equals the total when the expansion exhausts every bucket. -/
theorem calcValueArea_reach (vaPct : ℚ) (vbp : List (ℚ × ℤ)) (poc : ℚ) (total : ℤ)
    (hnn : ∀ x ∈ vbp, 0 ≤ x.2) (hnodup : (vbp.map Prod.fst).Nodup)
    (hmem : poc ∈ vbp.map Prod.fst) (htot : total = (vbp.map Prod.snd).sum) :
    (total : ℚ) * (vaPct / 100) ≤ ((calcValueArea vaPct vbp poc total).2.2 : ℚ) ∨
    (calcValueArea vaPct vbp poc total).2.2 = total := by
  have hperm : List.Perm (sortedPrices vbp) (vbp.map Prod.fst) :=
    List.perm_insertionSort (· ≤ ·) (vbp.map Prod.fst)
  have hmem2 : poc ∈ sortedPrices vbp := hperm.mem_iff.mpr hmem
  obtain ⟨pidx, hpidx⟩ := idxOf_isSome_of_mem hmem2
  obtain ⟨hlt, hget⟩ := idxOf_spec hpidx
  have hacc : lookupV vbp poc = sumIdx vbp (sortedPrices vbp) pidx pidx := by
    rw [sumIdx_single, hget]
  obtain ⟨hsum, hdisj⟩ := vaLoop_reach vbp (sortedPrices vbp)
    ((total : ℚ) * (vaPct / 100)) hnn (sortedPrices vbp).length pidx pidx
    (lookupV vbp poc) hlt (le_refl _) (by omega) hacc
  simp only [calcValueArea, hpidx]
  rcases hdisj with h | ⟨hz, he⟩
  · exact Or.inl h
  · right
    rw [hsum, hz, he, sumIdx_full vbp (sortedPrices vbp) (by omega), htot]
    calc ((sortedPrices vbp).map (lookupV vbp)).sum
        = ((vbp.map Prod.fst).map (lookupV vbp)).sum := (hperm.map _).sum_eq
      _ = (vbp.map Prod.snd).sum := sum_lookup_keys vbp hnodup

/-- The min fold lands on the seed or a list element. -/
theorem foldl_min_mem : ∀ (t : List ℚ) (x : ℚ), t.foldl min x ∈ x :: t := by
  intro t
  induction t with
  | nil => intro x; exact List.mem_cons_self _ _
  | cons z t ih =>
    intro x
    show t.foldl min (min x z) ∈ x :: z :: t
    rcases List.mem_cons.mp (ih (min x z)) with h' | h'
    · rcases min_choice x z with hm | hm
      · rw [h', hm]; exact List.mem_cons_self _ _
      · rw [h', hm]; exact List.mem_cons_of_mem _ (List.mem_cons_self _ _)
    · exact List.mem_cons_of_mem _ (List.mem_cons_of_mem _ h')

/-- The min fold is below the seed and every element. -/
theorem foldl_min_le : ∀ (t : List ℚ) (x : ℚ),
    t.foldl min x ≤ x ∧ ∀ y ∈ t, t.foldl min x ≤ y := by
  intro t
  induction t with
  | nil => intro x; exact ⟨le_refl _, by simp⟩
  | cons z t ih =>
    intro x
    show t.foldl min (min x z) ≤ x ∧ ∀ y ∈ z :: t, t.foldl min (min x z) ≤ y
    obtain ⟨h1, h2⟩ := ih (min x z)
    refine ⟨le_trans h1 (min_le_left _ _), ?_⟩
    intro y hy
    rcases List.mem_cons.mp hy with hy | hy
    · subst hy
      exact le_trans h1 (min_le_right _ _)
    · exact h2 y hy

/-- The max fold lands on the seed or a list element. -/
theorem foldl_max_mem : ∀ (t : List ℚ) (x : ℚ), t.foldl max x ∈ x :: t := by
  intro t
  induction t with
  | nil => intro x; exact List.mem_cons_self _ _
  | cons z t ih =>
    intro x
    show t.foldl max (max x z) ∈ x :: z :: t
    rcases List.mem_cons.mp (ih (max x z)) with h' | h'
    · rcases max_choice x z with hm | hm
      · rw [h', hm]; exact List.mem_cons_self _ _
      · rw [h', hm]; exact List.mem_cons_of_mem _ (List.mem_cons_self _ _)
    · exact List.mem_cons_of_mem _ (List.mem_cons_of_mem _ h')

/-- The max fold is above the seed and every element. -/
theorem foldl_max_ge : ∀ (t : List ℚ) (x : ℚ),
    x ≤ t.foldl max x ∧ ∀ y ∈ t, y ≤ t.foldl max x := by
  intro t
  induction t with
  | nil => intro x; exact ⟨le_refl _, by simp⟩
  | cons z t ih =>
    intro x
    show x ≤ t.foldl max (max x z) ∧ ∀ y ∈ z :: t, y ≤ t.foldl max (max x z)
    obtain ⟨h1, h2⟩ := ih (max x z)
    refine ⟨le_trans (le_max_left _ _) h1, ?_⟩
    intro y hy
    rcases List.mem_cons.mp hy with hy | hy
    · subst hy
      exact le_trans (le_max_right _ _) h1
    · exact h2 y hy

/-- Python min() of a nonempty list is a member. -/
theorem listMin_mem {l : List ℚ} (h : l ≠ []) : listMin l ∈ l := by
  cases l with
  | nil => exact absurd rfl h
  | cons x t => exact foldl_min_mem t x

/-- Python min() is a lower bound. -/
theorem listMin_le {l : List ℚ} : ∀ y ∈ l, listMin l ≤ y := by
  cases l with
  | nil => simp
  | cons x t =>
    intro y hy
    obtain ⟨h1, h2⟩ := foldl_min_le t x
    rcases List.mem_cons.mp hy with hy | hy
    · exact hy ▸ h1
    · exact h2 y hy

/-- Python max() of a nonempty list is a member. -/
theorem listMax_mem {l : List ℚ} (h : l ≠ []) : listMax l ∈ l := by
  cases l with
  | nil => exact absurd rfl h
  | cons x t => exact foldl_max_mem t x

/-- Python max() is an upper bound. -/
theorem listMax_ge {l : List ℚ} : ∀ y ∈ l, y ≤ listMax l := by
  cases l with
  | nil => simp
  | cons x t =>
    intro y hy
    obtain ⟨h1, h2⟩ := foldl_max_ge t x
    rcases List.mem_cons.mp hy with hy | hy
    · exact hy ▸ h1
    · exact h2 y hy

/-- An empty max() argument is the only way to get none. -/
theorem pyMaxBySnd_eq_none {l : List (ℚ × ℤ)} (h : pyMaxBySnd l = none) : l = [] := by
  cases l with
  | nil => rfl
  | cons x t => exact absurd h (by simp [pyMaxBySnd])

/-- Inversion of the profile-construction pipeline: a successfully built profile
    is mkProfile applied to the bucketed volumes and the POC returned by max. -/
theorem calcCore_inv {sym : String} {N : ℕ} {vaPct : ℚ} {ticks : List LiveQuote}
    {p : VolumeProfileData} (h : calcCore sym N vaPct ticks = some p) :
    ∃ pocPair, pyMaxBySnd (coreVbp N ticks) = some pocPair ∧
      p = mkProfile sym vaPct ticks (coreVbp N ticks) pocPair (corePmin ticks)
        (corePmax ticks) (coreLevels N ticks) := by
  unfold calcCore at h
  split at h
  · exact absurd h (by simp)
  · split at h
    · exact absurd h (by simp)
    · split at h
      · exact absurd h (by simp)
      · cases hm : pyMaxBySnd (coreVbp N ticks) with
        | none => rw [hm] at h; exact absurd h (by simp)
        | some pocPair =>
          rw [hm] at h
          simp only [Option.some.injEq] at h
          exact ⟨pocPair, rfl, h.symm⟩

/-- A successful windowed calculation is a successful core calculation on the
    filtered ticks. -/
theorem calculateVolumeProfile_inv {sym : String} {N : ℕ} {vaPct : ℚ}
    {s e : Option ℕ} {ticks : List LiveQuote} {p : VolumeProfileData}
    (h : calculateVolumeProfile sym N vaPct s e ticks = some p) :
    calcCore sym N vaPct (pyFilterWindow s e ticks) = some p := by
  unfold calculateVolumeProfile at h
  split at h
  · exact absurd h (by simp)
  · exact h

/-- C1, amended: for every window that produces a profile, the POC is a bucket
    of maximal accumulated volume, and among tied maxima it is the first bucket
    in dict insertion order (the bucket first touched in tick order): every
    earlier bucket has strictly smaller volume. -/
theorem C1_poc_first_max (sym : String) (N : ℕ) (vaPct : ℚ) (s e : Option ℕ)
    (ticks : List LiveQuote) (p : VolumeProfileData)
    (h : calculateVolumeProfile sym N vaPct s e ticks = some p) :
    ∃ v t1 t2, p.volume_by_price = t1 ++ (p.poc, v) :: t2 ∧
      (∀ x ∈ t1, x.2 < v) ∧
      (∀ x ∈ p.volume_by_price, x.2 ≤ v) := by
  obtain ⟨pocPair, hm, hp⟩ := calcCore_inv (calculateVolumeProfile_inv h)
  subst hp
  obtain ⟨hmax, t1, t2, hsplit, hpre⟩ := pyMaxBySnd_spec hm
  exact ⟨pocPair.2, t1, t2, hsplit, hpre, hmax⟩

/-- C1, witness: the amended theorem applied to the two-bucket tie input. -/
theorem C1_poc_first_max_witness :
    ∃ v t1 t2, c1profile.volume_by_price = t1 ++ (c1profile.poc, v) :: t2 ∧
      (∀ x ∈ t1, x.2 < v) ∧
      (∀ x ∈ c1profile.volume_by_price, x.2 ≤ v) :=
  C1_poc_first_max "S" 2 70 none none c1ticks c1profile (by with_unfolding_all rfl)

/-- C1, counterexample: on c1ticks the profile is built, the tied lower-priced
    bucket 1/2 has the same volume 5 as the POC bucket, yet the POC is 1, the
    higher-priced (first-inserted) bucket: the lowest-price tie-break rule of
    the claim does not hold. -/
theorem C1_counterexample :
    (calculateVolumeProfile "S" 2 70 none none c1ticks).map
      (fun p => (p.poc, p.volume_by_price)) = some (1, [(1, 5), (1/2, 5)]) ∧
    ((1 : ℚ)/2 < 1) := by
  constructor
  · with_unfolding_all decide
  · norm_num

/-- C4: every built profile satisfies val ≤ poc ≤ vah, and its total volume is
    the sum of its per-bucket volumes. -/
theorem C4_profile_invariants (sym : String) (N : ℕ) (vaPct : ℚ) (s e : Option ℕ)
    (ticks : List LiveQuote) (p : VolumeProfileData)
    (h : calculateVolumeProfile sym N vaPct s e ticks = some p) :
    p.val ≤ p.poc ∧ p.poc ≤ p.vah ∧
    (p.volume_by_price.map Prod.snd).sum = p.total_volume := by
  obtain ⟨pocPair, hm, hp⟩ := calcCore_inv (calculateVolumeProfile_inv h)
  subst hp
  obtain ⟨hmax, t1, t2, hsplit, hpre⟩ := pyMaxBySnd_spec hm
  have hmem : pocPair.1 ∈ (coreVbp N (pyFilterWindow s e ticks)).map Prod.fst := by
    rw [hsplit]
    simp
  obtain ⟨hv1, hv2⟩ := calcValueArea_bounds vaPct (coreVbp N (pyFilterWindow s e ticks))
    pocPair.1 (((coreVbp N (pyFilterWindow s e ticks)).map Prod.snd).sum) hmem
  exact ⟨hv1, hv2, rfl⟩

/-- C4, witness at the two-bucket input. -/
theorem C4_profile_invariants_witness :
    c1profile.val ≤ c1profile.poc ∧ c1profile.poc ≤ c1profile.vah ∧
    (c1profile.volume_by_price.map Prod.snd).sum = c1profile.total_volume :=
  C4_profile_invariants "S" 2 70 none none c1ticks c1profile (by with_unfolding_all rfl)

/-- C3: value-area expansion starts both pointers at the POC bucket of the
    ascending-sorted prices, expands toward the larger neighbouring volume
    (upward on ties, the source comparison being >=), and stops once the
    accumulated volume reaches value_area_pct% of the total or no expansion is
    possible; hence with nonnegative tick volumes the returned
    value_area_volume is at least value_area_pct% of total_volume, or equals
    total_volume when the expansion exhausts all buckets. -/
theorem C3_value_area_target (sym : String) (N : ℕ) (vaPct : ℚ) (s e : Option ℕ)
    (ticks : List LiveQuote) (p : VolumeProfileData)
    (h : calculateVolumeProfile sym N vaPct s e ticks = some p)
    (hnn : ∀ t ∈ ticks, 0 ≤ t.volume) :
    vaPct / 100 * (p.total_volume : ℚ) ≤ (p.value_area_volume : ℚ) ∨
    p.value_area_volume = p.total_volume := by
  obtain ⟨pocPair, hm, hp⟩ := calcCore_inv (calculateVolumeProfile_inv h)
  subst hp
  obtain ⟨hmax, t1, t2, hsplit, hpre⟩ := pyMaxBySnd_spec hm
  have hmem : pocPair.1 ∈ (coreVbp N (pyFilterWindow s e ticks)).map Prod.fst := by
    rw [hsplit]
    simp
  have hnn2 : ∀ x ∈ coreVbp N (pyFilterWindow s e ticks), 0 ≤ x.2 := by
    refine buildVbp_nonneg _ _ _ _ _ ?_
    intro t ht
    exact hnn t (List.mem_of_mem_filter ht)
  have hnd := buildVbp_fst_nodup N (corePmin (pyFilterWindow s e ticks))
    (coreBs N (pyFilterWindow s e ticks)) (coreLevels N (pyFilterWindow s e ticks))
    (pyFilterWindow s e ticks)
  rcases calcValueArea_reach vaPct (coreVbp N (pyFilterWindow s e ticks)) pocPair.1
    (((coreVbp N (pyFilterWindow s e ticks)).map Prod.snd).sum) hnn2 hnd hmem rfl
    with h1 | h1
  · left
    calc vaPct / 100 * ((((coreVbp N (pyFilterWindow s e ticks)).map Prod.snd).sum : ℤ) : ℚ)
        = ((((coreVbp N (pyFilterWindow s e ticks)).map Prod.snd).sum : ℤ) : ℚ)
            * (vaPct / 100) := by ring
      _ ≤ _ := h1
  · right
    exact h1

/-- C3, witness at the two-bucket input. -/
theorem C3_value_area_target_witness :
    (70 : ℚ) / 100 * (c1profile.total_volume : ℚ) ≤ (c1profile.value_area_volume : ℚ) ∨
    c1profile.value_area_volume = c1profile.total_volume :=
  C3_value_area_target "S" 2 70 none none c1ticks c1profile
    (by with_unfolding_all rfl) (by with_unfolding_all decide)

/-- C9: profile construction fails, leaving the cached profile unchanged, when
    the time-filtered window has fewer than 10 ticks (InsufficientData) or all
    its prices are equal (DegenerateRange); and with a positive bucket count a
    call over a window meeting the preconditions succeeds, replacing the cache
    with the new profile. -/
theorem C9_preconditions_and_cache (sym : String) (N : ℕ) (vaPct : ℚ)
    (s e : Option ℕ) (ticks : List LiveQuote) (cache : Option VolumeProfileData) :
    ((pyFilterWindow s e ticks).length < 10 →
      calcAndCache sym N vaPct s e ticks cache = (none, cache)) ∧
    ((∀ t1 ∈ pyFilterWindow s e ticks, ∀ t2 ∈ pyFilterWindow s e ticks,
        t1.ltp = t2.ltp) →
      calcAndCache sym N vaPct s e ticks cache = (none, cache)) ∧
    (0 < N → 10 ≤ (pyFilterWindow s e ticks).length →
      (∃ t1 ∈ pyFilterWindow s e ticks, ∃ t2 ∈ pyFilterWindow s e ticks,
        t1.ltp ≠ t2.ltp) →
      ∃ p, calcAndCache sym N vaPct s e ticks cache = (some p, some p)) := by
  refine ⟨?_, ?_, ?_⟩
  · intro hlen
    have hnone : calculateVolumeProfile sym N vaPct s e ticks = none := by
      unfold calculateVolumeProfile
      split
      · rfl
      · unfold calcCore
        rw [if_pos hlen]
    unfold calcAndCache
    rw [hnone]
  · intro hall
    have hnone : calculateVolumeProfile sym N vaPct s e ticks = none := by
      unfold calculateVolumeProfile
      split
      · rfl
      · unfold calcCore
        by_cases hlen : (pyFilterWindow s e ticks).length < 10
        · rw [if_pos hlen]
        · rw [if_neg hlen]
          have hne : pyFilterWindow s e ticks ≠ [] := by
            intro hcon
            rw [hcon] at hlen
            exact hlen (by norm_num)
          have hmapne : (pyFilterWindow s e ticks).map (·.ltp) ≠ [] := by
            simpa using hne
          obtain ⟨ta, hta, htaeq⟩ :=
            List.exists_of_mem_map (listMin_mem hmapne)
          obtain ⟨tb, htb, htbeq⟩ :=
            List.exists_of_mem_map (listMax_mem hmapne)
          have hrange : corePmax (pyFilterWindow s e ticks)
              - corePmin (pyFilterWindow s e ticks) = 0 := by
            unfold corePmax corePmin
            rw [← htaeq, ← htbeq, hall tb htb ta hta]
            ring
          rw [if_pos hrange]
    unfold calcAndCache
    rw [hnone]
  · intro hN hlen ⟨ta, hta, tb, htb, hne⟩
    have hfne : pyFilterWindow s e ticks ≠ [] := by
      intro hcon
      rw [hcon] at hlen
      simp at hlen
    have htne : ticks ≠ [] := by
      intro hcon
      rw [hcon] at hfne
      exact hfne rfl
    have hrange : ¬ (corePmax (pyFilterWindow s e ticks)
        - corePmin (pyFilterWindow s e ticks) = 0) := by
      intro h0
      have hminmax : corePmin (pyFilterWindow s e ticks)
          = corePmax (pyFilterWindow s e ticks) := by linarith
      have h1 : corePmin (pyFilterWindow s e ticks) ≤ ta.ltp :=
        listMin_le _ (List.mem_map_of_mem _ hta)
      have h2 : ta.ltp ≤ corePmax (pyFilterWindow s e ticks) :=
        listMax_ge _ (List.mem_map_of_mem _ hta)
      have h3 : corePmin (pyFilterWindow s e ticks) ≤ tb.ltp :=
        listMin_le _ (List.mem_map_of_mem _ htb)
      have h4 : tb.ltp ≤ corePmax (pyFilterWindow s e ticks) :=
        listMax_ge _ (List.mem_map_of_mem _ htb)
      exact hne (by linarith)
    have hvbpne : coreVbp N (pyFilterWindow s e ticks) ≠ [] :=
      buildVbp_ne_nil _ _ _ _ _ hfne
    cases hm : pyMaxBySnd (coreVbp N (pyFilterWindow s e ticks)) with
    | none => exact absurd (pyMaxBySnd_eq_none hm) hvbpne
    | some pocPair =>
      have hcc : calculateVolumeProfile sym N vaPct s e ticks =
          some (mkProfile sym vaPct (pyFilterWindow s e ticks)
            (coreVbp N (pyFilterWindow s e ticks)) pocPair
            (corePmin (pyFilterWindow s e ticks))
            (corePmax (pyFilterWindow s e ticks))
            (coreLevels N (pyFilterWindow s e ticks))) := by
        unfold calculateVolumeProfile
        rw [if_neg htne]
        unfold calcCore
        rw [if_neg (not_lt.mpr hlen), if_neg hrange, if_neg (by omega), hm]
      refine ⟨mkProfile sym vaPct (pyFilterWindow s e ticks)
        (coreVbp N (pyFilterWindow s e ticks)) pocPair
        (corePmin (pyFilterWindow s e ticks))
        (corePmax (pyFilterWindow s e ticks))
        (coreLevels N (pyFilterWindow s e ticks)), ?_⟩
      unfold calcAndCache
      rw [hcc]

/-- C9, witness: too few ticks leave the cache as it was; a flat window leaves
    the cache as it was; the two-bucket window succeeds and replaces the cache. -/
theorem C9_preconditions_witness :
    calcAndCache "S" 2 70 none none c9ticksShort (some vpC2) = (none, some vpC2) ∧
    calcAndCache "S" 2 70 none none c9ticksFlat (some vpC2) = (none, some vpC2) ∧
    ∃ p, calcAndCache "S" 2 70 none none c1ticks (some vpC2) = (some p, some p) := by
  obtain ⟨h1, _, _⟩ := C9_preconditions_and_cache "S" 2 70 none none c9ticksShort (some vpC2)
  obtain ⟨_, h2, _⟩ := C9_preconditions_and_cache "S" 2 70 none none c9ticksFlat (some vpC2)
  obtain ⟨_, _, h3⟩ := C9_preconditions_and_cache "S" 2 70 none none c1ticks (some vpC2)
  refine ⟨h1 (by with_unfolding_all decide), h2 (by with_unfolding_all decide), h3 ?_ ?_ ?_⟩
  · norm_num
  · with_unfolding_all decide
  · refine ⟨⟨3/2, 5, 0⟩, ?_, ⟨1/2, 5, 1⟩, ?_, by norm_num⟩
    · with_unfolding_all decide
    · with_unfolding_all decide
